import Mathlib

/-!
Verification of the puppeteer-extensions library (HuddleEng/puppeteer-extensions).

This file gives a shallow embedding, in Lean 4, of the request-tracking and
polling logic of `src/Extensions.ts` together with the page-context helpers the
specification talks about, and proves or refutes the specified properties.

Modelling conventions:
* A puppeteer `Request` is a record of its URL, its resource type and the
  status of its response (`none` while no response has arrived).
* `pollFor` in the source wraps `setInterval`: the callback fires at times
  `interval, 2*interval, 3*interval, ...` after the recorded start.  We index
  callback firings ("ticks") by `k : Nat`, the k-th tick firing at elapsed time
  `(k+1)*interval`.  The check function is a state-passing function
  `Nat → σ → Bool × σ` because in the source the check is a closure over
  mutable state (`hasInjectedWebFontsAllLoadedFunction` in the font wait).
* JavaScript promise rejection values are modelled by `JsValue`: the source
  rejects with the bare message string (`reject(timeoutMsg)`), while an
  `Error`-like object would be a `JsValue.errorObj`.
* The extra `Nat` returned by `pollFor` counts how many times the check
  function was invoked; the source does not return it, it is observational
  instrumentation used to state invocation-count properties.
* The recursion of the polling loop is bounded by fuel `timeout + 1`; for any
  `interval ≥ 1` the loop provably hits the deadline branch before the fuel
  runs out, and the fuel-exhaustion branch returns the same timed-out result
  that the real loop eventually reaches in wall-clock time.
-/

namespace PuppeteerExtensions

/-- One observed network request: URL, resource category, and the status code
of its response, `none` while `request.response()` is still `null`. -/
structure Request where
  url : String
  resourceType : String
  responseStatus : Option Nat
deriving DecidableEq, Repr

/-- Translation of `isSuccessfulResponse` from `src/Extensions.ts`: a request
counts as successfully responded iff it has a response with status 200 or
304. -/
def isSuccessfulResponse (request : Request) : Bool :=
  match request.responseStatus with
  | some status => status == 200 || status == 304
  | none => false

/-- A JavaScript value used as a promise rejection reason: either a bare
string or an `Error`-like object (constructor name and message). -/
inductive JsValue where
  | str : String → JsValue
  | errorObj : String → String → JsValue
deriving DecidableEq, Repr

/-- Whether a rejection reason is an `Error`-like object (as opposed to a
bare string). -/
def JsValue.isErrorObject : JsValue → Bool
  | .errorObj _ _ => true
  | .str _ => false

/-- Outcome of one `pollFor` promise: resolved with a string, or rejected
with a `JsValue`. -/
inductive PollResult where
  | resolved : String → PollResult
  | rejected : JsValue → PollResult
deriving DecidableEq, Repr

/-- Whether a poll outcome is a rejection whose reason is an `Error`-like
object. -/
def PollResult.rejectedWithErrorObject : PollResult → Bool
  | .rejected v => v.isErrorObject
  | .resolved _ => false

/-- The loop body of `pollFor` from `src/Extensions.ts`:

```
const timer = setInterval(async () => {
    if (new Date().getTime() - startTime < timeout) {
        if (await checkFn()) { clearInterval(timer); resolve('Finished polling'); }
    } else { clearInterval(timer); reject(timeoutMsg); }
}, interval);
```

Tick `k` fires at elapsed time `(k+1)*interval`.  While that elapsed time is
strictly below `timeout` the check runs; on success the timer is cleared and
the promise resolves, otherwise the loop continues; at the first tick at or
past the deadline the timer is cleared and the promise is rejected with the
bare message string.  The first `Nat` argument is recursion fuel, the second
is the tick index; the returned `Nat` counts check invocations. -/
def pollForGo (checkFn : Nat → σ → Bool × σ) (interval timeout : Nat)
    (timeoutMsg : String) : Nat → Nat → σ → PollResult × Nat
  | 0, k, _ => (.rejected (.str timeoutMsg), k)
  | fuel + 1, k, s =>
    if (k + 1) * interval < timeout then
      match checkFn k s with
      | (true, _) => (.resolved "Finished polling", k + 1)
      | (false, s2) => pollForGo checkFn interval timeout timeoutMsg fuel (k + 1) s2
    else (.rejected (.str timeoutMsg), k)

/-- Translation of `pollFor` from `src/Extensions.ts`, started at tick 0 in
state `s` with fuel `timeout + 1` (sufficient for every positive interval). -/
def pollFor (checkFn : Nat → σ → Bool × σ) (interval timeout : Nat)
    (timeoutMsg : String) (s : σ) : PollResult × Nat :=
  pollForGo checkFn interval timeout timeoutMsg (timeout + 1) 0 s

/-- The state seen by tick `k`, obtained by threading the check function
through ticks `0, ..., k-1`. -/
def iterState (checkFn : Nat → σ → Bool × σ) (s0 : σ) : Nat → σ
  | 0 => s0
  | k + 1 => (checkFn k (iterState checkFn s0 k)).2

/-! Generic lemmas about the polling loop. -/

theorem pollForGo_rejected_shape (checkFn : Nat → σ → Bool × σ)
    (interval timeout : Nat) (timeoutMsg : String) :
    ∀ fuel k s v n, pollForGo checkFn interval timeout timeoutMsg fuel k s =
      (.rejected v, n) → v = .str timeoutMsg := by
  intro fuel
  induction fuel with
  | zero =>
    intro k s v n h
    simp only [pollForGo] at h
    exact ((PollResult.rejected.injEq _ _).mp (congrArg Prod.fst h).symm).symm ▸ rfl
  | succ fuel ih =>
    intro k s v n h
    simp only [pollForGo] at h
    by_cases hb : (k + 1) * interval < timeout
    · rw [if_pos hb] at h
      rcases hc : checkFn k s with ⟨b, s2⟩
      rw [hc] at h
      cases b with
      | true => simp at h
      | false => exact ih (k + 1) s2 v n h
    · rw [if_neg hb] at h
      exact ((PollResult.rejected.injEq _ _).mp (congrArg Prod.fst h).symm).symm ▸ rfl

theorem pollForGo_never_true (checkFn : Nat → σ → Bool × σ)
    (interval timeout : Nat) (timeoutMsg : String)
    (hfalse : ∀ k s, (checkFn k s).1 = false) :
    ∀ fuel k s, ∃ n, pollForGo checkFn interval timeout timeoutMsg fuel k s =
      (.rejected (.str timeoutMsg), n) := by
  intro fuel
  induction fuel with
  | zero => intro k s; exact ⟨k, rfl⟩
  | succ fuel ih =>
    intro k s
    by_cases hb : (k + 1) * interval < timeout
    · rcases hc : checkFn k s with ⟨b, s2⟩
      have hb2 : b = false := by have := hfalse k s; rw [hc] at this; exact this
      subst hb2
      rcases ih (k + 1) s2 with ⟨n, hn⟩
      exact ⟨n, by simp only [pollForGo, if_pos hb, hc, hn]⟩
    · exact ⟨k, by simp only [pollForGo, if_neg hb]⟩

theorem pollForGo_rejected_elapsed (checkFn : Nat → σ → Bool × σ)
    (interval timeout : Nat) (timeoutMsg : String) (hpos : 0 < interval) :
    ∀ fuel k s v n, timeout ≤ k + fuel →
      pollForGo checkFn interval timeout timeoutMsg fuel k s = (.rejected v, n) →
      timeout ≤ (n + 1) * interval := by
  intro fuel
  induction fuel with
  | zero =>
    intro k s v n hle h
    simp only [pollForGo, Prod.mk.injEq] at h
    have hn : n = k := h.2.symm
    subst hn
    calc timeout ≤ n := by omega
    _ ≤ (n + 1) * interval := by
      calc n ≤ n + 1 := Nat.le_succ n
      _ = (n + 1) * 1 := (Nat.mul_one _).symm
      _ ≤ (n + 1) * interval := Nat.mul_le_mul_left _ hpos
  | succ fuel ih =>
    intro k s v n hle h
    simp only [pollForGo] at h
    by_cases hb : (k + 1) * interval < timeout
    · rw [if_pos hb] at h
      rcases hc : checkFn k s with ⟨b, s2⟩
      rw [hc] at h
      cases b with
      | true => simp at h
      | false => exact ih (k + 1) s2 v n (by omega) h
    · rw [if_neg hb] at h
      have hn : n = k := ((Prod.mk.injEq _ _ _ _).mp h).2.symm
      subst hn
      omega

theorem pollForGo_resolved_spec (checkFn : Nat → σ → Bool × σ)
    (interval timeout : Nat) (timeoutMsg : String) (s0 : σ) :
    ∀ fuel k r n, pollForGo checkFn interval timeout timeoutMsg fuel k
        (iterState checkFn s0 k) = (.resolved r, n) →
      ∃ m, k ≤ m ∧ (m + 1) * interval < timeout ∧
        (checkFn m (iterState checkFn s0 m)).1 = true ∧ n = m + 1 := by
  intro fuel
  induction fuel with
  | zero => intro k r n h; simp only [pollForGo] at h; simp at h
  | succ fuel ih =>
    intro k r n h
    simp only [pollForGo] at h
    by_cases hb : (k + 1) * interval < timeout
    · rw [if_pos hb] at h
      rcases hc : checkFn k (iterState checkFn s0 k) with ⟨b, s2⟩
      rw [hc] at h
      cases b with
      | true =>
        refine ⟨k, Nat.le_refl k, hb, by rw [hc], ?_⟩
        exact ((Prod.mk.injEq _ _ _ _).mp h).2.symm
      | false =>
        have hs2 : s2 = iterState checkFn s0 (k + 1) := by
          simp only [iterState, hc]
        rw [hs2] at h
        rcases ih (k + 1) r n h with ⟨m, hm1, hm2, hm3, hm4⟩
        exact ⟨m, by omega, hm2, hm3, hm4⟩
    · rw [if_neg hb] at h
      simp at h

theorem pollFor_never_true (checkFn : Nat → σ → Bool × σ)
    (interval timeout : Nat) (timeoutMsg : String) (s : σ)
    (hfalse : ∀ k s2, (checkFn k s2).1 = false) :
    ∃ n, pollFor checkFn interval timeout timeoutMsg s =
      (.rejected (.str timeoutMsg), n) :=
  pollForGo_never_true checkFn interval timeout timeoutMsg hfalse (timeout + 1) 0 s

/-! The resource wait.  `waitForResource` searches the request log with
`this.resourceRequests.find(r => r.url().indexOf(resource) !== -1)`.  The
JavaScript `indexOf(needle) !== -1` test holds exactly when `needle` occurs
as a contiguous substring (in particular, the empty needle always occurs). -/

/-- Occurrence test behind `url().indexOf(resource) !== -1`: the needle is a
prefix of some suffix of the haystack. -/
def indexOfFound (needle : List Char) : List Char → Bool
  | [] => needle.isPrefixOf []
  | c :: rest => needle.isPrefixOf (c :: rest) || indexOfFound needle rest

/-- Substring test on a request URL, from `r.url().indexOf(resource) !== -1`
in `waitForResource`. -/
def urlContains (request : Request) (resource : String) : Bool :=
  indexOfFound resource.toList request.url.toList

/-- Translation of the closure `resourceRequestHasResponded` inside
`waitForResource`: find the first logged request whose URL contains the
pattern; if one exists, test `isSuccessfulResponse` on it, otherwise report
`false`. -/
def resourceRequestHasResponded (resourceRequests : List Request)
    (resource : String) : Bool :=
  match resourceRequests.find? (fun r => urlContains r resource) with
  | some resourceRequest => isSuccessfulResponse resourceRequest
  | none => false

/-- Message used by `waitForResource` on expiry. -/
def waitForResourceMsg : String := "Timeout waiting for resource match."

/-- Outcome of a `waitForResource` call: resolved synchronously without
entering the polling loop, or handed to the polling loop whose result (and
check-invocation count) is recorded. -/
inductive ResourceWaitResult where
  | immediate : ResourceWaitResult
  | polled : PollResult → Nat → ResourceWaitResult
deriving DecidableEq, Repr

/-- Translation of `waitForResource` from `src/Extensions.ts`.  `log0` is the
request log at call time; `logAt k` is the log observed by poll tick `k`
(the log grows over time as the page issues requests).  The synchronous
check runs first; only if it fails does the 100ms polling loop start. -/
def waitForResource (log0 : List Request) (logAt : Nat → List Request)
    (resource : String) (timeout : Nat) : ResourceWaitResult :=
  if resourceRequestHasResponded log0 resource then .immediate
  else
    let pr := pollFor (fun k _ => (resourceRequestHasResponded (logAt k) resource, ()))
      100 timeout waitForResourceMsg ()
    .polled pr.1 pr.2

/-! The Extensions facade state: the request log and the default timeout.
The constructor subscribes to the page `request` event and pushes every
request; `resetResourceRequests` replaces the log with the empty array. -/

/-- State of one `Extensions` instance. -/
structure Extensions where
  resourceRequests : List Request
  defaultTimeout : Nat
deriving DecidableEq, Repr

/-- The `request` event handler installed by the constructor:
`this.resourceRequests.push(request)`. -/
def onRequest (e : Extensions) (request : Request) : Extensions :=
  { e with resourceRequests := e.resourceRequests ++ [request] }

/-- Translation of `resetResourceRequests`: `this.resourceRequests = []`. -/
def resetResourceRequests (e : Extensions) : Extensions :=
  { e with resourceRequests := [] }

/-! The font wait.  `waitForLoadedWebFontCountToBe` polls with a closure over
the mutable flag `hasInjectedWebFontsAllLoadedFunction`; once the count of
successful font responses matches it installs the page probe that stores the
font-ready signal in `window.__webFontsAllLoaded`, returns `false` on that
tick, and on subsequent ticks reads back the stored page flag. -/

/-- Mutable state of the font-wait check closure plus the page flag the probe
writes: `hasInjected` is `hasInjectedWebFontsAllLoadedFunction`, and
`webFontsAllLoaded` is the value stored in `window.__webFontsAllLoaded`
(read as `false` while the probe has not been installed). -/
structure FontWaitState where
  hasInjected : Bool
  webFontsAllLoaded : Bool
deriving DecidableEq, Repr

/-- Environment of one font wait: the request log observed by each tick, and
the page font-ready signal (`document.fonts.ready` having fired) that the
probe stores into `window.__webFontsAllLoaded` when it is installed at a
given tick. -/
structure FontWaitEnv where
  logAt : Nat → List Request
  fontsReadyAt : Nat → Bool

/-- Count of logged requests of resource type `font` with a successful
response, from the `requests.filter` in `checkWebFontIsLoaded`. -/
def fontSuccessCount (log : List Request) : Nat :=
  (log.filter fun r => r.resourceType == "font" && isSuccessfulResponse r).length

/-- Translation of the closure `checkWebFontIsLoaded`: when the successful
font-response count equals `count`, either read back the page flag (probe
already installed) or install the probe, record the font-ready signal, and
return `false` for this tick; when the count differs, return `false`. -/
def checkWebFontIsLoaded (env : FontWaitEnv) (count : Nat) (k : Nat)
    (s : FontWaitState) : Bool × FontWaitState :=
  if fontSuccessCount (env.logAt k) == count then
    if s.hasInjected then (s.webFontsAllLoaded, s)
    else (false, { hasInjected := true, webFontsAllLoaded := env.fontsReadyAt k })
  else (false, s)

/-- Timeout message of the font wait:
`` `Timeout waiting for ${count} web font responses` ``. -/
def fontWaitMsg (count : Nat) : String :=
  "Timeout waiting for " ++ toString count ++ " web font responses"

/-- Initial state of one font-wait call: the flag is declared `false` and the
page flag is unset. -/
def fontWaitInit : FontWaitState :=
  { hasInjected := false, webFontsAllLoaded := false }

/-- Translation of `waitForLoadedWebFontCountToBe`: poll the font check at a
100ms interval with the given timeout and the count-bearing message. -/
def waitForLoadedWebFontCountToBe (env : FontWaitEnv) (count timeout : Nat) :
    PollResult × Nat :=
  pollFor (checkWebFontIsLoaded env count) 100 timeout (fontWaitMsg count) fontWaitInit

/-- State of the font-wait closure as seen by tick `k`. -/
def fontStateAt (env : FontWaitEnv) (count : Nat) : Nat → FontWaitState :=
  iterState (checkWebFontIsLoaded env count) fontWaitInit

/-- The probe is installed at tick `k`: the closure flag flips from unset to
set across that tick. -/
def installsAt (env : FontWaitEnv) (count : Nat) (k : Nat) : Prop :=
  (fontStateAt env count k).hasInjected = false ∧
    (fontStateAt env count (k + 1)).hasInjected = true

/-! Helper lemmas about the font-wait state machine. -/

theorem checkWebFont_stable (env : FontWaitEnv) (count k : Nat)
    (s : FontWaitState) (h : s.hasInjected = true) :
    (checkWebFontIsLoaded env count k s).2 = s := by
  unfold checkWebFontIsLoaded
  by_cases hc : fontSuccessCount (env.logAt k) == count
  · simp [hc, h]
  · simp [hc]

theorem checkWebFont_fst_true (env : FontWaitEnv) (count k : Nat)
    (s : FontWaitState) (h : (checkWebFontIsLoaded env count k s).1 = true) :
    fontSuccessCount (env.logAt k) = count ∧ s.hasInjected = true ∧
      s.webFontsAllLoaded = true := by
  unfold checkWebFontIsLoaded at h
  by_cases hc : fontSuccessCount (env.logAt k) == count
  · by_cases hi : s.hasInjected
    · exact ⟨beq_iff_eq.mp hc, hi, by simpa [hc, hi] using h⟩
    · simp [hc, hi] at h
  · simp [hc] at h

theorem fontState_hasInjected_mono (env : FontWaitEnv) (count : Nat) :
    ∀ j k, j ≤ k → (fontStateAt env count j).hasInjected = true →
      (fontStateAt env count k).hasInjected = true := by
  intro j k
  induction k with
  | zero => intro hle h; exact (Nat.le_zero.mp hle) ▸ h
  | succ k ih =>
    intro hle h
    rcases Nat.lt_or_ge j (k + 1) with hlt | hge
    · have hk : (fontStateAt env count k).hasInjected = true := ih (by omega) h
      show (fontStateAt env count (k + 1)).hasInjected = true
      have : fontStateAt env count (k + 1) =
          (checkWebFontIsLoaded env count k (fontStateAt env count k)).2 := rfl
      rw [this, checkWebFont_stable env count k _ hk]
      exact hk
    · have : j = k + 1 := by omega
      exact this ▸ h

theorem installsAt_unique (env : FontWaitEnv) (count : Nat) :
    ∀ j k, installsAt env count j → installsAt env count k → j = k := by
  intro j k hj hk
  rcases Nat.lt_trichotomy j k with h | h | h
  · exact absurd (fontState_hasInjected_mono env count (j + 1) k (by omega) hj.2)
      (by rw [hk.1]; exact Bool.false_ne_true)
  · exact h
  · exact absurd (fontState_hasInjected_mono env count (k + 1) j (by omega) hk.2)
      (by rw [hj.1]; exact Bool.false_ne_true)

/-! Mutation history of the request log.  Exactly two code paths write to
`this.resourceRequests`: the `request` event handler installed by the
constructor (a push) and `resetResourceRequests` (replacement by the empty
array).  A history of a facade instance is therefore a sequence of these
two operations applied to the initially empty log. -/

/-- One mutation of the request log. -/
inductive LogOp where
  | requestEvent : Request → LogOp
  | reset : LogOp
deriving DecidableEq, Repr

/-- Effect of one mutation, from the source: the event handler appends the
request at the end, and reset clears the log. -/
def applyLogOp (log : List Request) : LogOp → List Request
  | .requestEvent r => log ++ [r]
  | .reset => []

/-- The request log after a history of mutations, starting from the empty
log of a fresh instance. -/
def runLog (ops : List LogOp) : List Request :=
  ops.foldl applyLogOp []

/-- The requests carried by a sequence of mutations, in issue order. -/
def requestsOf (ops : List LogOp) : List Request :=
  ops.filterMap fun op =>
    match op with
    | .requestEvent r => some r
    | .reset => none

/-- Modelled from the spec: the portion of the history strictly after the
last reset (the whole history when no reset occurred). -/
def opsSinceLastReset (ops : List LogOp) : List LogOp :=
  (ops.reverse.takeWhile fun op => !(op == .reset)).reverse

/-- Modelled from the spec: the log content the invariant of section 3
predicts, namely the requests issued since the last reset, in issue order. -/
def logSpec (ops : List LogOp) : List Request :=
  requestsOf (opsSinceLastReset ops)

/-! Concurrency model for the polling loop.  `setInterval` keeps firing its
callback every `interval` milliseconds regardless of whether the promise
returned by a previous (async) callback has settled, and the callback calls
`checkFn` synchronously once the deadline test passes.  Hence, as long as no
check has returned `true` and the deadline has not been reached (so the timer
has not been cleared), the invocation of `checkFn` started by tick `k` is in
flight from its start time `(k+1)*interval` until it settles `dur k`
milliseconds later.  This definition covers histories in which every check
returns `false`, which is all the stated concurrency property needs. -/

/-- Elapsed time at which tick `k` of a `setInterval` loop fires. -/
def tickTime (interval : Nat) (k : Nat) : Nat := (k + 1) * interval

/-- The check invocation started by tick `k` is still running at elapsed
time `t`, for a poll whose checks all return `false` and where the check
started at tick `k` takes `dur k` milliseconds to settle. -/
def checkInFlightAt (interval timeout : Nat) (dur : Nat → Nat) (k t : Nat) : Bool :=
  decide (tickTime interval k < timeout) && decide (tickTime interval k ≤ t) &&
    decide (t < tickTime interval k + dur k)

/-! The retrieval operation `getPropertyValue`.  The in-page closure is
`(selector, property) => { const element = document.querySelector(selector);
return element[property]; }`; when the selector resolves to no element,
`element` is `null` and the property access throws a `TypeError` inside the
page, so `page.evaluate` rejects.  The surrounding `try { return
this.puppeteerPage.evaluate(...); } catch (e) { throw Error(...) }` returns
the promise from inside the `try` without `await`, so an asynchronous
rejection of that promise is not routed through the `catch` block: it
surfaces unwrapped.  The `catch` can only intercept synchronous throws of
the `evaluate` call itself, which returns a promise and does not throw. -/

/-- A DOM element for the retrieval model: a table from property names to
values, `none` meaning the property reads as `undefined`. -/
structure Element where
  props : String → Option String

/-- Failure channel of a retrieval operation: either the raw rejection
coming out of the in-page evaluation, or an `Error` constructed by the
wrapping `catch` block. -/
inductive JsError where
  | pageError : String → JsError
  | wrappedError : String → JsError

/-- Message of the `TypeError` the page throws when the property access hits
a `null` element (browser-generated text; its exact wording is host
dependent, but it names neither the selector nor the property). -/
def nullElementErrorMsg : String := "TypeError: Cannot read properties of null"

/-- The in-page closure of `getPropertyValue`: resolve the selector, then
read the property; a missing element makes the property access throw. -/
def pageGetProperty (dom : String → Option Element) (selector property : String) :
    Except String (Option String) :=
  match dom selector with
  | none => .error nullElementErrorMsg
  | some element => .ok (element.props property)

/-- The message the dead `catch` block would attach:
`` `Unable able to get ${property} from ${selector}.` `` (wording as in the
source). -/
def getPropertyValueCatchMsg (selector property : String) : String :=
  "Unable able to get " ++ property ++ " from " ++ selector ++ "."

/-- Translation of `getPropertyValue` with the actual JavaScript semantics:
the promise produced by `evaluate` is returned from inside the `try` without
`await`, so a rejected evaluation bypasses the `catch` and surfaces as the
raw page error; the wrapping branch is unreachable for evaluation failures. -/
def getPropertyValue (dom : String → Option Element) (selector property : String) :
    Except JsError (Option String) :=
  match pageGetProperty dom selector property with
  | .error e => .error (.pageError e)
  | .ok v => .ok v

/-! The time fast-forward.  `fastForwardTime` runs, inside the page,

```
window.__oldDate = Date;
class HackyDate {
    constructor() {
        this.date = new window.__oldDate(new window.__oldDate().getTime() + milliseconds);
    }
    now() { return this.date.getTime(); }
}
window.Date = HackyDate;
```

`window.__oldDate` is read dynamically each time a `HackyDate` is
constructed, and each call to `fastForwardTime` overwrites `__oldDate` with
whatever `Date` currently is.  The model captures the two page globals and
evaluates constructions with explicit recursion fuel, since after a second
call the construction recurses through `window.__oldDate` forever. -/

/-- A constructor value a page `Date` binding can hold: the native `Date`,
or one of the injected `HackyDate` classes with its captured offset. -/
inductive JsClass where
  | realDate : JsClass
  | hackyDate : Int → JsClass
deriving DecidableEq, Repr

/-- A constructed date object: a native `Date` holding a time value, or a
`HackyDate` instance holding its `date` field. -/
inductive DateInstance where
  | realInst : Int → DateInstance
  | hackyInst : DateInstance → DateInstance
deriving DecidableEq, Repr

/-- The page globals touched by `fastForwardTime`. -/
structure PageGlobals where
  dateClass : JsClass
  oldDate : Option JsClass
deriving DecidableEq, Repr

/-- Calling `.getTime()` on a date object: native `Date` instances have it;
`HackyDate` instances do not (the class only defines `now`), so the call
throws. -/
def instGetTime : DateInstance → Except String Int
  | .realInst v => .ok v
  | .hackyInst _ => .error "getTime is not a function"

/-- Calling `.now()` on a date object: a `HackyDate` instance returns
`this.date.getTime()`; a native `Date` instance has no own `now` method. -/
def instNow : DateInstance → Except String Int
  | .hackyInst d => instGetTime d
  | .realInst _ => .error "now is not a function"

/-- Evaluating `new c(arg?)` in a page whose globals are `g`, at native
clock reading `t`.  The native `Date` ignores fuel; a `HackyDate`
constructor reads `window.__oldDate` dynamically, builds
`new __oldDate().getTime() + milliseconds`, and passes it to a second
`new __oldDate(...)` (whose argument a `HackyDate` target in turn ignores,
since its constructor is nullary).  Fuel bounds the construction depth; its
exhaustion is the stack overflow of an unbounded recursion. -/
def constructWith (g : PageGlobals) (t : Int) :
    JsClass → Option Int → Nat → Except String DateInstance
  | .realDate, none, _ => .ok (.realInst t)
  | .realDate, some v, _ => .ok (.realInst v)
  | .hackyDate _, _, 0 => .error "Maximum call stack size exceeded"
  | .hackyDate ms, _, fuel + 1 =>
    match g.oldDate with
    | none => .error "window.__oldDate is not a constructor"
    | some old =>
      match constructWith g t old none fuel with
      | .error e => .error e
      | .ok inner =>
        match instGetTime inner with
        | .error e => .error e
        | .ok base =>
          match constructWith g t old (some (base + ms)) fuel with
          | .error e => .error e
          | .ok d => .ok (.hackyInst d)

/-- Translation of the page-side effect of `fastForwardTime(milliseconds)`:
save the current `Date` binding into `window.__oldDate`, then rebind `Date`
to a fresh `HackyDate` class capturing `milliseconds`. -/
def fastForwardTime (g : PageGlobals) (milliseconds : Int) : PageGlobals :=
  { dateClass := .hackyDate milliseconds, oldDate := some g.dateClass }

/-- A page that has not been touched: `Date` is native and `__oldDate` is
unset. -/
def freshPage : PageGlobals :=
  { dateClass := .realDate, oldDate := none }

/-! Supporting lemmas for the resource wait. -/

theorem resourceRequestHasResponded_iff (log : List Request) (resource : String) :
    resourceRequestHasResponded log resource = true ↔
      ∃ l1 r l2, log = l1 ++ r :: l2 ∧
        (∀ x ∈ l1, urlContains x resource = false) ∧
        urlContains r resource = true ∧ isSuccessfulResponse r = true := by
  unfold resourceRequestHasResponded
  rcases hf : List.find? (fun r => urlContains r resource) log with _ | a
  · simp only [Bool.false_eq_true, false_iff]
    rintro ⟨l1, r, l2, rfl, hpre, hr, hs⟩
    have hmem : r ∈ l1 ++ r :: l2 := List.mem_append_right _ (List.mem_cons_self r l2)
    have := List.find?_eq_none.mp hf r hmem
    exact this hr
  · constructor
    · intro hs
      rcases List.find?_eq_some.mp hf with ⟨hpa, as, bs, hdec, hall⟩
      refine ⟨as, a, bs, hdec, ?_, hpa, hs⟩
      intro x hx
      have := hall x hx
      simpa using this
    · rintro ⟨l1, r, l2, hdec, hpre, hr, hs⟩
      have hfr : List.find? (fun r => urlContains r resource) log = some r := by
        apply List.find?_eq_some.mpr
        exact ⟨hr, l1, l2, hdec, fun x hx => by simp [hpre x hx]⟩
      rw [hf] at hfr
      cases hfr
      exact hs

theorem resourceRequestHasResponded_false_of_no_match (log : List Request)
    (resource : String) (h : ∀ r ∈ log, urlContains r resource = false) :
    resourceRequestHasResponded log resource = false := by
  unfold resourceRequestHasResponded
  rw [List.find?_eq_none.mpr (fun x hx => by simp [h x hx])]

/-! Claim theorems. -/

/-- C1: `waitForResource` resolves synchronously, without entering the 100ms
polling loop, exactly when the first request in the log (in log order) whose
URL contains the pattern as a substring has a response with status 200 or
304; in every other situation (first match unsuccessful or unresponded, or
no match at all) the call enters the polling loop. -/
theorem C1_waitForResource_immediate_iff_first_match (log0 : List Request)
    (logAt : Nat → List Request) (resource : String) (timeout : Nat) :
    (waitForResource log0 logAt resource timeout = .immediate ↔
      ∃ l1 r l2, log0 = l1 ++ r :: l2 ∧
        (∀ x ∈ l1, urlContains x resource = false) ∧
        urlContains r resource = true ∧ isSuccessfulResponse r = true) ∧
    (waitForResource log0 logAt resource timeout = .immediate ∨
      ∃ pr n, waitForResource log0 logAt resource timeout = .polled pr n) := by
  constructor
  · rw [← resourceRequestHasResponded_iff log0 resource]
    unfold waitForResource
    by_cases hr : resourceRequestHasResponded log0 resource = true
    · simp [hr]
    · rw [if_neg hr]
      exact iff_of_false (fun hc => ResourceWaitResult.noConfusion hc) hr
  · unfold waitForResource
    by_cases hr : resourceRequestHasResponded log0 resource = true
    · left; simp [hr]
    · right
      rw [if_neg hr]
      exact ⟨_, _, rfl⟩

/-- Closed witness for C1: a log whose first and only entry matches `main`
with status 200 makes the call resolve without polling. -/
theorem C1_witness :
    waitForResource [⟨"http://x/main.js", "script", some 200⟩] (fun _ => [])
      "main" 1000 = .immediate :=
  (C1_waitForResource_immediate_iff_first_match _ _ _ _).1.mpr
    ⟨[], ⟨"http://x/main.js", "script", some 200⟩, [], rfl, by simp, rfl, rfl⟩

/-- C2 counterexample: at a concrete configuration whose check never returns
true, the failure value of `pollFor` is the bare message string, not an
`Error`-shaped value, contradicting the claim that the failure is a
`TimeoutError` object rather than a bare string. -/
theorem C2_counterexample :
    (pollFor (fun _ (_ : Unit) => (false, ())) 100 250 waitForResourceMsg ()).1 =
      .rejected (.str waitForResourceMsg) ∧
    ((pollFor (fun _ (_ : Unit) => (false, ())) 100 250
      waitForResourceMsg ()).1).rejectedWithErrorObject = false :=
  ⟨rfl, rfl⟩

/-- C2 amended: for every poll configuration whose check function never
returns true, once elapsed time since the recorded start reaches or exceeds
the timeout, `pollFor` fails, and the rejection value is the configured
timeout message itself as a bare string (the source runs
`reject(timeoutMsg)`), not an `Error`-shaped value. -/
theorem C2_pollFor_times_out_with_bare_message {σ : Type}
    (checkFn : Nat → σ → Bool × σ) (interval timeout : Nat) (timeoutMsg : String)
    (s : σ) (hpos : 0 < interval)
    (hfalse : ∀ k s2, (checkFn k s2).1 = false) :
    ∃ n, pollFor checkFn interval timeout timeoutMsg s =
        (.rejected (.str timeoutMsg), n) ∧ timeout ≤ (n + 1) * interval := by
  rcases pollFor_never_true checkFn interval timeout timeoutMsg s hfalse with ⟨n, hn⟩
  refine ⟨n, hn, ?_⟩
  exact pollForGo_rejected_elapsed checkFn interval timeout timeoutMsg hpos
    (timeout + 1) 0 s _ n (by omega) hn

/-- Closed witness for the amended C2 at a concrete configuration. -/
theorem C2_witness :
    ∃ n, pollFor (fun _ (_ : Unit) => (false, ())) 100 250 waitForResourceMsg () =
        (.rejected (.str waitForResourceMsg), n) ∧ 250 ≤ (n + 1) * 100 :=
  C2_pollFor_times_out_with_bare_message _ 100 250 waitForResourceMsg ()
    (by decide) (fun _ _ => rfl)

/-- C4: whenever the check function is invoked at all and returns true on
its first invocation (the first tick fires inside the budget, which is the
case exactly when `interval < timeout`), `pollFor` resolves with the success
value after exactly one check invocation, before any second tick. -/
theorem C4_pollFor_first_check_true {σ : Type} (checkFn : Nat → σ → Bool × σ)
    (s : σ) (interval timeout : Nat) (timeoutMsg : String)
    (hfirst : (checkFn 0 s).1 = true) (hrun : interval < timeout) :
    pollFor checkFn interval timeout timeoutMsg s =
      (.resolved "Finished polling", 1) := by
  rcases hc : checkFn 0 s with ⟨b, s2⟩
  have hb : b = true := by rw [hc] at hfirst; exact hfirst
  subst hb
  show pollForGo checkFn interval timeout timeoutMsg (timeout + 1) 0 s = _
  simp only [pollForGo, Nat.zero_add, Nat.one_mul, if_pos hrun, hc]

/-- Closed witness for C4 at a concrete configuration. -/
theorem C4_witness :
    pollFor (fun _ (_ : Unit) => (true, ())) 100 1000 waitForResourceMsg () =
      (.resolved "Finished polling", 1) :=
  C4_pollFor_first_check_true _ () 100 1000 waitForResourceMsg rfl (by decide)

/-- C5: after `resetResourceRequests` the log is empty, an empty log never
satisfies the resource check, and a `waitForResource` call made right after
the reset whose pattern is never matched by any later-appended request fails
by timeout with the resource-wait message. -/
theorem C5_reset_then_waitForResource_times_out (e : Extensions)
    (resource : String) (logAt : Nat → List Request) (timeout : Nat)
    (hnomatch : ∀ k r, r ∈ logAt k → urlContains r resource = false) :
    (resetResourceRequests e).resourceRequests = [] ∧
    resourceRequestHasResponded (resetResourceRequests e).resourceRequests
      resource = false ∧
    ∃ n, waitForResource (resetResourceRequests e).resourceRequests logAt
        resource timeout = .polled (.rejected (.str waitForResourceMsg)) n := by
  refine ⟨rfl, rfl, ?_⟩
  have hresp : ∀ k, resourceRequestHasResponded (logAt k) resource = false :=
    fun k => resourceRequestHasResponded_false_of_no_match _ _ (hnomatch k)
  rcases pollFor_never_true
      (fun k _ => (resourceRequestHasResponded (logAt k) resource, ()))
      100 timeout waitForResourceMsg () (fun k _ => hresp k) with ⟨n, hn⟩
  refine ⟨n, ?_⟩
  show ResourceWaitResult.polled
      (pollFor (fun k _ => (resourceRequestHasResponded (logAt k) resource, ()))
        100 timeout waitForResourceMsg ()).1
      (pollFor (fun k _ => (resourceRequestHasResponded (logAt k) resource, ()))
        100 timeout waitForResourceMsg ()).2 = _
  rw [hn]

/-- Closed witness for C5: a facade whose log held a matching `main` request
is reset; with no later requests the wait times out. -/
theorem C5_witness :
    (resetResourceRequests ⟨[⟨"http://x/main.js", "script", some 200⟩], 5000⟩).resourceRequests = [] ∧
    resourceRequestHasResponded
      (resetResourceRequests ⟨[⟨"http://x/main.js", "script", some 200⟩], 5000⟩).resourceRequests
      "main" = false ∧
    ∃ n, waitForResource
        (resetResourceRequests ⟨[⟨"http://x/main.js", "script", some 200⟩], 5000⟩).resourceRequests
        (fun _ => []) "main" 150 = .polled (.rejected (.str waitForResourceMsg)) n :=
  C5_reset_then_waitForResource_times_out _ "main" (fun _ => []) 150
    (fun _ r hr => absurd hr (List.not_mem_nil r))

/-- C10: the first check is scheduled one full interval after the start, so
with `timeout ≤ interval` the deadline test fails at the very first tick:
the check function is never invoked (invocation count 0) and the poll is
rejected with the timeout message.  In particular `waitForResource` (when
its synchronous check finds the condition unsatisfied) and
`waitForLoadedWebFontCountToBe`, whose interval is 100, always fail this way
when called with `timeout ≤ 100`. -/
theorem C10_timeout_le_interval_never_checks :
    (∀ (σ : Type) (checkFn : Nat → σ → Bool × σ) (s : σ)
        (interval timeout : Nat) (timeoutMsg : String), timeout ≤ interval →
      pollFor checkFn interval timeout timeoutMsg s =
        (.rejected (.str timeoutMsg), 0)) ∧
    (∀ (log0 : List Request) (logAt : Nat → List Request) (resource : String)
        (timeout : Nat), timeout ≤ 100 →
      resourceRequestHasResponded log0 resource = false →
      waitForResource log0 logAt resource timeout =
        .polled (.rejected (.str waitForResourceMsg)) 0) ∧
    (∀ (env : FontWaitEnv) (count timeout : Nat), timeout ≤ 100 →
      waitForLoadedWebFontCountToBe env count timeout =
        (.rejected (.str (fontWaitMsg count)), 0)) := by
  have hgen : ∀ (σ : Type) (checkFn : Nat → σ → Bool × σ) (s : σ)
      (interval timeout : Nat) (timeoutMsg : String), timeout ≤ interval →
      pollFor checkFn interval timeout timeoutMsg s =
        (.rejected (.str timeoutMsg), 0) := by
    intro σ checkFn s interval timeout timeoutMsg h
    show pollForGo checkFn interval timeout timeoutMsg (timeout + 1) 0 s = _
    simp only [pollForGo, Nat.zero_add, Nat.one_mul,
      if_neg (Nat.not_lt.mpr h)]
  refine ⟨hgen, ?_, ?_⟩
  · intro log0 logAt resource timeout hto hresp
    have hcond : ¬ (resourceRequestHasResponded log0 resource = true) := by
      simp [hresp]
    unfold waitForResource
    rw [if_neg hcond]
    simp only []
    rw [hgen Unit _ () 100 timeout waitForResourceMsg hto]
  · intro env count timeout hto
    exact hgen FontWaitState _ fontWaitInit 100 timeout (fontWaitMsg count) hto

/-! Substring-occurrence lemmas for the count-bearing timeout message. -/

theorem isPrefixOf_append_self (l t : List Char) :
    l.isPrefixOf (l ++ t) = true := by
  induction l with
  | nil => cases t <;> rfl
  | cons c cs ih => simp [List.isPrefixOf, ih]

theorem indexOfFound_of_isPrefixOf (needle : List Char) (h : List Char)
    (hp : needle.isPrefixOf h = true) : indexOfFound needle h = true := by
  cases h with
  | nil => simpa [indexOfFound] using hp
  | cons c rest => simp [indexOfFound, hp]

theorem indexOfFound_append (needle pre suf : List Char) :
    indexOfFound needle (pre ++ (needle ++ suf)) = true := by
  induction pre with
  | nil => exact indexOfFound_of_isPrefixOf needle _ (isPrefixOf_append_self needle suf)
  | cons c cs ih => simp [indexOfFound, ih]

/-- C3: the font wait is a 100ms poll of the font check; on a tick where the
successful-font-response count equals the expected count the check installs
the page probe exactly once — recording the font-ready signal and reporting
false for that tick — while on subsequent ticks it reads back the cached
page flag without reinstalling; it can only resolve on a tick where the
count matches, the probe is installed, and the cached font-ready flag is
true; and on expiry it is rejected with the timeout message, which contains
the expected count. -/
theorem C3_waitForLoadedWebFontCountToBe_behavior (env : FontWaitEnv)
    (count timeout : Nat) :
    (∀ k s, s.hasInjected = false → fontSuccessCount (env.logAt k) = count →
      checkWebFontIsLoaded env count k s =
        (false, { hasInjected := true, webFontsAllLoaded := env.fontsReadyAt k })) ∧
    (∀ k s, s.hasInjected = true →
      checkWebFontIsLoaded env count k s =
        ((if fontSuccessCount (env.logAt k) == count then s.webFontsAllLoaded
          else false), s)) ∧
    (∀ k s, fontSuccessCount (env.logAt k) ≠ count →
      checkWebFontIsLoaded env count k s = (false, s)) ∧
    (∀ j k, installsAt env count j → installsAt env count k → j = k) ∧
    (∀ r n, waitForLoadedWebFontCountToBe env count timeout = (.resolved r, n) →
      ∃ m, (m + 1) * 100 < timeout ∧ fontSuccessCount (env.logAt m) = count ∧
        (fontStateAt env count m).hasInjected = true ∧
        (fontStateAt env count m).webFontsAllLoaded = true) ∧
    (∀ v n, waitForLoadedWebFontCountToBe env count timeout = (.rejected v, n) →
      v = .str (fontWaitMsg count)) ∧
    indexOfFound (toString count).toList (fontWaitMsg count).toList = true := by
  refine ⟨?_, ?_, ?_, installsAt_unique env count, ?_, ?_, ?_⟩
  · intro k s hs hc
    unfold checkWebFontIsLoaded
    simp [hc, hs]
  · intro k s hs
    unfold checkWebFontIsLoaded
    by_cases hc : fontSuccessCount (env.logAt k) == count
    · simp [hc, hs]
    · simp [hc, hs]
  · intro k s hc
    unfold checkWebFontIsLoaded
    simp [hc]
  · intro r n hrun
    have hrun2 : pollForGo (checkWebFontIsLoaded env count) 100 timeout
        (fontWaitMsg count) (timeout + 1) 0
        (iterState (checkWebFontIsLoaded env count) fontWaitInit 0) =
        (.resolved r, n) := hrun
    rcases pollForGo_resolved_spec (checkWebFontIsLoaded env count) 100 timeout
        (fontWaitMsg count) fontWaitInit (timeout + 1) 0 r n hrun2 with
      ⟨m, _, hm2, hm3, _⟩
    rcases checkWebFont_fst_true env count m _ hm3 with ⟨h1, h2, h3⟩
    exact ⟨m, hm2, h1, h2, h3⟩
  · intro v n hrun
    exact pollForGo_rejected_shape (checkWebFontIsLoaded env count) 100 timeout
      (fontWaitMsg count) (timeout + 1) 0 fontWaitInit v n hrun
  · have hsplit : (fontWaitMsg count).toList =
        "Timeout waiting for ".toList ++
          ((toString count).toList ++ " web font responses".toList) := by
      show ("Timeout waiting for " ++ toString count ++ " web font responses").data = _
      rw [String.data_append, String.data_append]
      exact List.append_assoc _ _ _
    rw [hsplit]
    exact indexOfFound_append _ _ _

/-- Closed witness for C3: one successful font response and a ready page
make the wait resolve on the second tick (the first tick installs the
probe), and the resolution tick satisfies the characterization. -/
theorem C3_witness :
    waitForLoadedWebFontCountToBe
        ⟨fun _ => [⟨"http://x/f.woff", "font", some 200⟩], fun _ => true⟩ 1 1000 =
      (.resolved "Finished polling", 2) ∧
    ∃ m, (m + 1) * 100 < 1000 ∧
      fontSuccessCount
        ((⟨fun _ => [⟨"http://x/f.woff", "font", some 200⟩], fun _ => true⟩ :
          FontWaitEnv).logAt m) = 1 ∧
      (fontStateAt ⟨fun _ => [⟨"http://x/f.woff", "font", some 200⟩], fun _ => true⟩
        1 m).hasInjected = true ∧
      (fontStateAt ⟨fun _ => [⟨"http://x/f.woff", "font", some 200⟩], fun _ => true⟩
        1 m).webFontsAllLoaded = true :=
  ⟨rfl,
   (C3_waitForLoadedWebFontCountToBe_behavior
      ⟨fun _ => [⟨"http://x/f.woff", "font", some 200⟩], fun _ => true⟩ 1
      1000).2.2.2.2.1 "Finished polling" 2 rfl⟩

/-- Closed witness for C10 at concrete configurations with `timeout ≤
interval`. -/
theorem C10_witness :
    pollFor (fun _ (_ : Unit) => (true, ())) 100 100 waitForResourceMsg () =
      (.rejected (.str waitForResourceMsg), 0) ∧
    waitForResource [] (fun _ => [⟨"http://x/main.js", "script", some 200⟩])
        "main" 100 = .polled (.rejected (.str waitForResourceMsg)) 0 ∧
    waitForLoadedWebFontCountToBe ⟨fun _ => [], fun _ => true⟩ 2 100 =
      (.rejected (.str (fontWaitMsg 2)), 0) :=
  ⟨(C10_timeout_le_interval_never_checks).1 Unit _ () 100 100 waitForResourceMsg
      (Nat.le_refl 100),
   (C10_timeout_le_interval_never_checks).2.1 [] _ "main" 100 (Nat.le_refl 100) rfl,
   (C10_timeout_le_interval_never_checks).2.2 ⟨fun _ => [], fun _ => true⟩ 2 100
      (Nat.le_refl 100)⟩

/-- C6 failing evaluation: with interval 100, timeout 1000, and every check
returning false after 250 milliseconds, the invocations started by tick 0
(at elapsed 100) and tick 1 (at elapsed 200) are both still in flight at
elapsed time 250 — `setInterval` keeps firing while the previous async check
is pending and the loop body has no serialization guard, so two check
invocations of the same poll configuration run concurrently. -/
theorem C6_two_checks_in_flight :
    checkInFlightAt 100 1000 (fun _ => 250) 0 250 = true ∧
    checkInFlightAt 100 1000 (fun _ => 250) 1 250 = true :=
  ⟨rfl, rfl⟩

/-- C7 failing evaluation: when the selector resolves to no element, the
call fails with the raw in-page TypeError — which names neither the selector
nor the property — and not with the wrapping error of the `catch` block,
because the promise is returned from inside the `try` without `await`. -/
theorem C7_missing_element_raw_error :
    getPropertyValue (fun _ => none) "#missing" "value" =
      .error (.pageError nullElementErrorMsg) ∧
    indexOfFound "#missing".toList nullElementErrorMsg.toList = false ∧
    indexOfFound "value".toList nullElementErrorMsg.toList = false ∧
    getPropertyValue (fun _ => none) "#missing" "value" ≠
      .error (.wrappedError (getPropertyValueCatchMsg "#missing" "value")) := by
  refine ⟨rfl, rfl, rfl, ?_⟩
  intro h
  rw [show getPropertyValue (fun _ => none) "#missing" "value" =
    .error (.pageError nullElementErrorMsg) from rfl] at h
  injection h with h2
  cases h2

/-- Helper for C9: in a page where `fastForwardTime` has run twice,
`window.__oldDate` holds the first injected class, whose constructor reads
`window.__oldDate` again, so constructing any injected class never
terminates: every finite construction depth ends in the stack-overflow
error. -/
theorem constructWith_after_two_calls (m1 m2 : Int) :
    ∀ fuel (t ms : Int) (arg : Option Int),
      constructWith (fastForwardTime (fastForwardTime freshPage m1) m2) t
        (.hackyDate ms) arg fuel = .error "Maximum call stack size exceeded" := by
  intro fuel
  induction fuel with
  | zero => intro t ms arg; rfl
  | succ fuel ih =>
    intro t ms arg
    have hold : (fastForwardTime (fastForwardTime freshPage m1) m2).oldDate =
        some (.hackyDate m1) := rfl
    simp only [constructWith, hold, ih t m1 none]

/-- C9 failing evaluation: a single `fastForwardTime(m1)` leaves a working
page clock offset by `m1` (a fresh date reports native time plus `m1`
through `now`), but after a second call `fastForwardTime(m2)` constructing a
page date recurses through `window.__oldDate` without bound at every
construction depth, so the page clock is broken rather than offset by
`m1 + m2`. -/
theorem C9_second_fastForwardTime_breaks_clock :
    (∀ (t m1 : Int) (fuel : Nat),
      constructWith (fastForwardTime freshPage m1) t
          ((fastForwardTime freshPage m1).dateClass) none (fuel + 1) =
        .ok (.hackyInst (.realInst (t + m1))) ∧
      instNow (.hackyInst (.realInst (t + m1))) = .ok (t + m1)) ∧
    (∀ (t m1 m2 : Int) (fuel : Nat),
      constructWith (fastForwardTime (fastForwardTime freshPage m1) m2) t
          ((fastForwardTime (fastForwardTime freshPage m1) m2).dateClass)
          none fuel = .error "Maximum call stack size exceeded") := by
  constructor
  · intro t m1 fuel
    constructor
    · simp [constructWith, fastForwardTime, freshPage, instGetTime]
    · rfl
  · intro t m1 m2 fuel
    exact constructWith_after_two_calls m1 m2 fuel t m2 none

/-- Helper for C8: after any mutation history the log holds exactly the
requests issued since the last reset, in issue order. -/
theorem runLog_eq_logSpec : ∀ ops : List LogOp, runLog ops = logSpec ops := by
  intro ops
  induction ops using List.reverseRecOn with
  | nil => rfl
  | append_singleton ops op ih =>
    have hrun : runLog (ops ++ [op]) = applyLogOp (runLog ops) op := by
      unfold runLog
      rw [List.foldl_append]
      rfl
    cases op with
    | reset =>
      rw [hrun]
      show ([] : List Request) = logSpec (ops ++ [LogOp.reset])
      unfold logSpec opsSinceLastReset
      rw [List.reverse_append]
      simp [List.takeWhile_cons, requestsOf]
    | requestEvent r =>
      rw [hrun]
      show runLog ops ++ [r] = logSpec (ops ++ [LogOp.requestEvent r])
      unfold logSpec opsSinceLastReset
      rw [List.reverse_append]
      simp only [List.reverse_singleton, List.singleton_append,
        List.takeWhile_cons]
      rw [if_pos (by rfl)]
      rw [List.reverse_cons]
      unfold requestsOf
      rw [List.filterMap_append]
      rw [ih]
      rfl

/-- C8: the request log is mutated only by the two operations found in the
source — the request-event handler, which appends one entry at the end
(keeping every existing entry in place, so log order equals issue order),
and reset, which clears the log — and after any history of such mutations
the log equals the requests issued since the last reset, in issue order. -/
theorem C8_log_append_only_and_ordered (ops : List LogOp) :
    (∀ (e : Extensions) (r : Request),
      (onRequest e r).resourceRequests =
        applyLogOp e.resourceRequests (.requestEvent r) ∧
      (resetResourceRequests e).resourceRequests =
        applyLogOp e.resourceRequests .reset) ∧
    (∀ (log : List Request) (op : LogOp),
      (∃ r, op = .requestEvent r ∧ applyLogOp log op = log ++ [r] ∧
        log <+: applyLogOp log op) ∨
      (op = .reset ∧ applyLogOp log op = [])) ∧
    runLog ops = logSpec ops := by
  refine ⟨fun e r => ⟨rfl, rfl⟩, ?_, runLog_eq_logSpec ops⟩
  intro log op
  cases op with
  | requestEvent r => exact Or.inl ⟨r, rfl, rfl, List.prefix_append log [r]⟩
  | reset => exact Or.inr ⟨rfl, rfl⟩

end PuppeteerExtensions
